import Mathlib

/-!
Verification of the CiderPress voice-memo migration/transcription core.

Shallow embedding of the Rust sources under `src-tauri/src/`:
  * `backend/models.rs`   — the `Slice` record and progress snapshots;
  * `backend/database.rs` — the SQLite-backed catalog operations, modelled
    as pure functions on an explicit `DB` state (a list of stored rows plus
    the connection's rowid bookkeeping);
  * `backend/migrate.rs`  — extension scan, per-file processing, the
    migration run loop and its shared progress cell;
  * `backend/transcribe.rs` and `lib.rs` — the per-slice transcription
    step and the sequential batch loop.

Rust `f64` values (audio durations, byte rates) are modelled as exact
rationals `ℚ`; `i64`/`i32` as `Int` (with explicit saturation where the
code performs a float-to-`i32` cast); `u64` sizes as `Nat`.  Fallible
operations return `Except`, paired with the state after the call so that
"error leaves the store unchanged" is expressible.
-/

namespace Ciderpress

/-- Embedding of the `Slice` record of `backend/models.rs` (one catalog row). -/
structure Slice where
  id : Option Int
  original_audio_file_name : String
  title : Option String
  transcribed : Bool
  audio_file_size : Int
  audio_file_type : String
  estimated_time_to_transcribe : Int
  audio_time_length_seconds : Option ℚ
  transcription : Option String
  transcription_time_taken : Option Int
  transcription_word_count : Option Int
  transcription_model : Option String
  recording_date : Option Int
deriving DecidableEq, Repr

/-- The catalog state held behind one SQLite connection: the `slices`
table (rows in rowid order) plus the rowid bookkeeping the connection
exposes (`last_insert_rowid`, next auto-assigned `INTEGER PRIMARY KEY`). -/
structure DB where
  slices : List Slice
  nextId : Int
  lastInsertRowid : Int
deriving DecidableEq, Repr

/-- Errors raised by the catalog operations in `database.rs`
(`anyhow` error strings, classified by the message each `bail` builds). -/
inductive DbError where
  | conflict (name : String)
  | notFound (sliceId : Int)
  | noRowsAffected
deriving DecidableEq, Repr

/-- Embedding of `database.rs::slice_exists`:
`SELECT COUNT(*) FROM slices WHERE original_audio_file_name = ?1` compared `> 0`. -/
def DB.slice_exists (db : DB) (filename : String) : Bool :=
  db.slices.any (fun s => s.original_audio_file_name == filename)

/-- Embedding of `database.rs::insert_slice`, an `INSERT OR IGNORE INTO slices …`.
On a `original_audio_file_name` uniqueness collision the row is ignored
(no error), the table is unchanged and `last_insert_rowid()` still names
whatever row was inserted last; otherwise the row is appended with the
next rowid.  Returns `(last_insert_rowid(), connection after)`. -/
def DB.insert_slice (db : DB) (s : Slice) : Int × DB :=
  if db.slices.any (fun t => t.original_audio_file_name == s.original_audio_file_name) then
    (db.lastInsertRowid, db)
  else
    let rid := db.nextId
    (rid, { slices := db.slices ++ [{ s with id := some rid }]
            nextId := rid + 1
            lastInsertRowid := rid })

/-- Embedding of `database.rs::update_slice_name`: pre-checks the new name against
every *other* row, then that the target row exists, then runs the
`UPDATE`.  An error return happens before the `UPDATE`, so the store is
returned unchanged alongside it. -/
def DB.update_slice_name (db : DB) (sliceId : Int) (newName : String) :
    Except DbError Unit × DB :=
  let existingCount :=
    (db.slices.filter (fun s =>
      s.original_audio_file_name == newName && !(s.id == some sliceId))).length
  if existingCount > 0 then
    (.error (.conflict newName), db)
  else
    let sliceCount := (db.slices.filter (fun s => s.id == some sliceId)).length
    if sliceCount = 0 then
      (.error (.notFound sliceId), db)
    else
      let slices' := db.slices.map (fun s =>
        if s.id == some sliceId then { s with original_audio_file_name := newName } else s)
      (.ok (), { db with slices := slices' })

/-- Embedding of `database.rs::update_slice`: same conflict/existence pre-checks as
`update_slice_name`, then an `UPDATE` overwriting every mutable column of
the target row with the caller-supplied record. -/
def DB.update_slice (db : DB) (sliceId : Int) (s : Slice) :
    Except DbError Unit × DB :=
  let existingCount :=
    (db.slices.filter (fun t =>
      t.original_audio_file_name == s.original_audio_file_name && !(t.id == some sliceId))).length
  if existingCount > 0 then
    (.error (.conflict s.original_audio_file_name), db)
  else
    let sliceCount := (db.slices.filter (fun t => t.id == some sliceId)).length
    if sliceCount = 0 then
      (.error (.notFound sliceId), db)
    else
      let slices' := db.slices.map (fun t =>
        if t.id == some sliceId then
          { t with
            original_audio_file_name := s.original_audio_file_name
            title := s.title
            transcribed := s.transcribed
            audio_file_size := s.audio_file_size
            audio_file_type := s.audio_file_type
            estimated_time_to_transcribe := s.estimated_time_to_transcribe
            audio_time_length_seconds := s.audio_time_length_seconds
            transcription := s.transcription
            transcription_time_taken := s.transcription_time_taken
            transcription_word_count := s.transcription_word_count
            transcription_model := s.transcription_model
            recording_date := s.recording_date }
        else t)
      (.ok (), { db with slices := slices' })

/-- Embedding of `database.rs::update_slice_transcription`: `UPDATE slices SET
transcribed = 1, transcription = ?1, transcription_time_taken = ?2,
transcription_word_count = ?3, transcription_model = ?4 WHERE id = ?5`. -/
def DB.update_slice_transcription (db : DB) (sliceId : Int) (transcription : String)
    (timeTaken wordCount : Int) (modelName : String) : DB :=
  { db with slices := db.slices.map (fun s =>
      if s.id == some sliceId then
        { s with
          transcribed := true
          transcription := some transcription
          transcription_time_taken := some timeTaken
          transcription_word_count := some wordCount
          transcription_model := some modelName }
      else s) }

/-- Test of the `WHERE audio_time_length_seconds > 86400` clause; in SQL a
`NULL` duration fails the comparison, so such rows are left alone. -/
def corruptRow (s : Slice) : Bool :=
  match s.audio_time_length_seconds with
  | some d => decide (86400 < d)
  | none => false

/-- Embedding of `database.rs::clear_corrupt_audio_durations`: `UPDATE slices SET
audio_time_length_seconds = NULL WHERE audio_time_length_seconds > 86400`.
Returns the updated store and `rows_affected`. -/
def DB.clear_corrupt_audio_durations (db : DB) : DB × Nat :=
  ({ db with slices := db.slices.map (fun s =>
      if corruptRow s then { s with audio_time_length_seconds := none } else s) },
   (db.slices.filter corruptRow).length)

/-- Row filter of the `get_transcription_speed` query: `transcribed = 1
AND transcription_time_taken IS NOT NULL AND transcription_time_taken > 0
AND audio_file_size > 0`. -/
def speedRow (s : Slice) : Bool :=
  s.transcribed &&
    (match s.transcription_time_taken with
     | some t => decide (0 < t)
     | none => false) &&
    decide (0 < s.audio_file_size)

/-- Embedding of `database.rs::get_transcription_speed`: over the rows passing
`speedRow`, `CASE WHEN SUM(transcription_time_taken) > 0 THEN
SUM(audio_file_size) / SUM(transcription_time_taken) ELSE NULL END`,
with the `NULL` (no-history) outcome defaulted to `34000.0`. -/
def DB.get_transcription_speed (db : DB) : ℚ :=
  let rows := db.slices.filter speedRow
  let sumTime : Int := (rows.map (fun s => (s.transcription_time_taken).getD 0)).sum
  let sumSize : Int := (rows.map (fun s => s.audio_file_size)).sum
  if 0 < sumTime then (sumSize : ℚ) / (sumTime : ℚ) else 34000

/-! ## `backend/migrate.rs` -/

/-- Saturating float-to-`i32` cast (Rust `as i32` on a finite `f64`). -/
def i32sat (n : Int) : Int := max (-2147483648) (min 2147483647 n)

/-- Saturating float-to-`u32` cast (Rust `as u32` on a finite `f64`),
kept as an `Int` that is clamped into the `u32` range. -/
def u32sat (n : Int) : Int := max 0 (min 4294967295 n)

/-- Embedding of `migrate.rs::estimate_transcription_time`.  With a known
duration: `max(1, ceil(duration / 600.0 * 35.0) as i32)`.  Without one:
`audio_minutes = size / 1_048_576.0`, then
`max(1, (audio_minutes / 10.0 * 35.0).round() as i32)`.  Rust `f64::round`
rounds half away from zero; the argument here is nonnegative (the size is
a `u64`), where that equals `⌊x + 1/2⌋`. -/
def estimate_transcription_time (file_size_bytes : ℕ) (audio_duration_seconds : Option ℚ) : Int :=
  match audio_duration_seconds with
  | some duration => max 1 (i32sat ⌈duration / 600 * 35⌉)
  | none =>
      let audio_minutes : ℚ := (file_size_bytes : ℚ) / 1048576
      max 1 (i32sat ⌊audio_minutes / 10 * 35 + 1/2⌋)

/-- Effective duration the spec assigns to a file of unknown duration:
the size read at roughly 1 MiB per minute of audio, in seconds. -/
def effectiveDurationSeconds (file_size_bytes : ℕ) : ℚ :=
  (file_size_bytes : ℚ) / 1048576 * 60

/-- Estimate rule exactly as the spec sentence words it: 35 seconds of
processing per 600 seconds of audio, on the actual duration when known and
otherwise on the size-derived effective duration, rounded **up**, minimum 1. -/
def estimateSpecCeil (file_size_bytes : ℕ) (audio_duration_seconds : Option ℚ) : Int :=
  max 1 ⌈(audio_duration_seconds.getD (effectiveDurationSeconds file_size_bytes)) / 600 * 35⌉

/-- Estimate rule as amended to match the code: the duration branch rounds
up, but the size-fallback branch rounds to the **nearest** integer (half
away from zero) instead of up; both branches clamp to the `i32` range and
to a minimum of 1. -/
def estimateSpecAmended (file_size_bytes : ℕ) (audio_duration_seconds : Option ℚ) : Int :=
  match audio_duration_seconds with
  | some duration => max 1 (i32sat ⌈duration * 35 / 600⌉)
  | none =>
      max 1 (i32sat ⌊effectiveDurationSeconds file_size_bytes * 35 / 600 + 1/2⌋)

/-- One filesystem object yielded by the `WalkDir` traversal of the source
tree (an object that was read successfully). -/
structure FsEntry where
  fileName : String
  isFile : Bool
deriving DecidableEq, Repr

/-- Characters after the last dot of a character list, or `none` when the
list has no dot. -/
def afterLastDot : List Char → Option (List Char)
  | [] => none
  | c :: cs =>
      match afterLastDot cs with
      | some r => some r
      | none => if c = '.' then some cs else none

/-- Embedding of Rust `Path::extension` on a plain file name: `none` when
there is no embedded dot, or when the name starts with a dot and has no
further dot; otherwise the portion after the final dot, case preserved. -/
def rustExtension (name : String) : Option String :=
  match name.data with
  | [] => none
  | c :: cs =>
      if c = '.' then (afterLastDot cs).map List.asString
      else (afterLastDot (c :: cs)).map List.asString

/-- Embedding of `migrate.rs::scan_m4a_files`: walk entries in order; an
access error is counted and skipped; a directory is counted; a regular
file is kept exactly when `path.extension().to_str() == Some("m4a")`
(an exact, case-sensitive comparison). -/
def scan_m4a_files (entries : List (Except String FsEntry)) : List FsEntry :=
  entries.filterMap (fun e =>
    match e with
    | .error _ => none
    | .ok ent =>
        if ent.isFile && (rustExtension ent.fileName == some ("m4a")) then some ent else none)

/-- One candidate source file as the per-file processing step sees it: its
name, its byte size, the probe and index lookups for it, and whether the
byte copy into managed storage would fail. -/
structure SourceFile where
  filename : String
  size : ℕ
  duration : Option ℚ
  recordingDate : Option Int
  copyFails : Bool
deriving DecidableEq, Repr

/-- Outcome of `migrate.rs::process_m4a_file`. -/
inductive ProcessResult where
  | Copied (size : ℕ)
  | Skipped
deriving DecidableEq, Repr

/-- Batch-scope and item-scope failures of the migration engine. -/
inductive MigError where
  | homeDirCreateFailed
  | dbOpenFailed
  | appleDbMissing
  | zcloudCopyFailed
  | permissionDenied
  | dirMissing
  | destDirCreateFailed
  | copyFailed
deriving DecidableEq, Repr

/-- Slice record built for a freshly copied file in
`migrate.rs::process_m4a_file` (step 4 of that function). -/
def mkSlice (f : SourceFile) : Slice :=
  { id := none
    original_audio_file_name := f.filename
    title := none
    transcribed := false
    audio_file_size := (f.size : Int)
    audio_file_type := (rustExtension f.filename).getD ("m4a")
    estimated_time_to_transcribe := estimate_transcription_time f.size f.duration
    audio_time_length_seconds := f.duration
    transcription := none
    transcription_time_taken := none
    transcription_word_count := none
    transcription_model := none
    recording_date := f.recordingDate }

/-- Embedding of `migrate.rs::process_m4a_file`: skip when the filename
already has a slice record; otherwise copy the bytes (failure is an item
error), then insert one slice record built from the copy size, the
duration probe and the recording-date lookup. -/
def process_m4a_file (f : SourceFile) (db : DB) : Except MigError (ProcessResult × DB) :=
  if db.slice_exists f.filename then .ok (.Skipped, db)
  else if f.copyFails then .error .copyFailed
  else
    let inserted := db.insert_slice (mkSlice f)
    .ok (.Copied f.size, inserted.2)

/-- Embedding of the `MigrationProgress` snapshot of `backend/models.rs`. -/
structure MigrationProgress where
  total_recordings : ℕ
  processed_recordings : ℕ
  failed_recordings : ℕ
  current_recording : Option String
  current_step : String
  total_size_bytes : ℕ
  processed_size_bytes : ℕ
deriving DecidableEq, Repr

/-- Embedding of `migrate.rs::MigrationEngine::update_progress`: when the
cell is occupied, overwrite the step text and any supplied totals; when it
is empty, do nothing. -/
def update_progress (p : Option MigrationProgress) (step : String)
    (total : Option ℕ) (totalSize : Option ℕ) : Option MigrationProgress :=
  p.map (fun q =>
    { q with
      current_step := step
      total_recordings := total.getD q.total_recordings
      total_size_bytes := totalSize.getD q.total_size_bytes })

/-- Embedding of the `MigrationSummary` counters of `backend/models.rs`. -/
structure MigrationSummary where
  copied : ℕ
  skipped : ℕ
  errors : ℕ
  total_size_bytes : ℕ
deriving DecidableEq, Repr

/-- State threaded through the per-file loop of
`migrate.rs::start_migration`: summary counters, the shared progress cell
and the catalog connection. -/
structure LoopState where
  summary : MigrationSummary
  progress : Option MigrationProgress
  db : DB
deriving DecidableEq, Repr

/-- One iteration of the `for (index, m4a_file)` loop of
`migrate.rs::start_migration`: announce the file in the progress cell,
process it, then bump the matching summary counter and progress fields. -/
def processLoopStep (total : ℕ) (st : LoopState) (idx : ℕ) (f : SourceFile) : LoopState :=
  let stepMsg :=
    "Processing (" ++ toString (idx + 1) ++ "/" ++ toString total ++ "): " ++ f.filename
  let p := update_progress st.progress stepMsg none none
  match process_m4a_file f st.db with
  | .ok (.Copied size, db') =>
      { summary := { st.summary with copied := st.summary.copied + 1 }
        progress := p.map (fun q =>
          { q with
            processed_recordings := idx + 1
            processed_size_bytes := q.processed_size_bytes + size })
        db := db' }
  | .ok (.Skipped, db') =>
      { summary := { st.summary with skipped := st.summary.skipped + 1 }
        progress := p.map (fun q => { q with processed_recordings := idx + 1 })
        db := db' }
  | .error _ =>
      { summary := { st.summary with errors := st.summary.errors + 1 }
        progress := p.map (fun q =>
          { q with
            failed_recordings := q.failed_recordings + 1
            processed_recordings := idx + 1 })
        db := st.db }

/-- The per-file loop of `migrate.rs::start_migration`, from position
`idx` over the remaining files. -/
def processLoop (total : ℕ) : ℕ → List SourceFile → LoopState → LoopState
  | _, [], st => st
  | idx, f :: fs, st => processLoop total (idx + 1) fs (processLoopStep total st idx f)

/-- One full pass of the migration loop over a file list, starting from a
zeroed summary (with the precomputed byte total), the given progress cell
contents and the given catalog. -/
def runMigrationFiles (files : List SourceFile) (p : Option MigrationProgress) (db : DB) :
    LoopState :=
  processLoop files.length 0 files
    ⟨⟨0, 0, 0, (files.map (fun f => f.size)).sum⟩, p, db⟩

/-- External conditions of one `start_migration` run: which fallible setup
steps succeed and what the source scan finds. -/
structure MigEnv where
  createHomeDirOk : Bool
  dbOpenOk : Bool
  appleDbExists : Bool
  copyZcloudOk : Bool
  dirExists : Bool
  dirListable : Bool
  createDestDirOk : Bool
  files : List SourceFile
deriving DecidableEq, Repr

/-- Fresh progress value installed at the top of `start_migration`. -/
def initialMigrationProgress : MigrationProgress :=
  { total_recordings := 0
    processed_recordings := 0
    failed_recordings := 0
    current_recording := none
    current_step := "Initializing..."
    total_size_bytes := 0
    processed_size_bytes := 0 }

/-- Embedding of `migrate.rs::start_migration`, exit path by exit path:
the returned triple is the `Result`, the contents of the shared
`MIGRATION_PROGRESS` cell at return, and the catalog afterwards.  The
early `?` returns (home-directory creation, database open, destination
directory creation) and the `ZCLOUDRECORDING` copy failure return with
the cell still occupied; the explicitly handled error paths and both
success paths clear it first. -/
def start_migration (env : MigEnv) (db : DB) :
    Except MigError Unit × Option MigrationProgress × DB :=
  let p : Option MigrationProgress := some initialMigrationProgress
  if env.createHomeDirOk = false then (.error .homeDirCreateFailed, p, db)
  else if env.dbOpenOk = false then (.error .dbOpenFailed, p, db)
  else
    let p := update_progress p ("Connecting to Apple Voice Memo database...") none none
    if env.appleDbExists = false then (.error .appleDbMissing, none, db)
    else
      let p := update_progress p ("Copying Apple Voice Memo database records...") none none
      if env.copyZcloudOk = false then
        (.error .zcloudCopyFailed,
         update_progress p ("Failed to copy ZCLOUDRECORDING table") none none, db)
      else
        let p := update_progress p ("Scanning for .m4a audio files...") none none
        if env.dirExists = false then (.error .dirMissing, none, db)
        else if env.dirListable = false then (.error .permissionDenied, none, db)
        else if env.files.isEmpty then (.ok (), none, db)
        else
          let totalSize := (env.files.map (fun f => f.size)).sum
          let p := update_progress p ("Starting file migration...")
            (some env.files.length) (some totalSize)
          if env.createDestDirOk = false then (.error .destDirCreateFailed, p, db)
          else
            let st := processLoop env.files.length 0 env.files
              ⟨⟨0, 0, 0, totalSize⟩, p, db⟩
            (.ok (), none, st.db)

/-! ## `backend/transcribe.rs` and the batch loop of `lib.rs` -/

/-- Embedding of the `TranscriptionProgress` snapshot of
`backend/models.rs`.  The two elapsed-seconds fields are wall-clock
derived; here they hold whatever was last stored. -/
structure TranscriptionProgress where
  total_slices : ℕ
  completed_slices : ℕ
  failed_slices : ℕ
  current_slice_id : Option Int
  current_slice_name : Option String
  current_step : String
  estimated_total_seconds : ℕ
  elapsed_seconds : ℕ
  is_active : Bool
  current_slice_elapsed_seconds : ℕ
  current_slice_estimated_seconds : Int
  current_slice_file_size : Int
  bytes_per_second_rate : ℚ
deriving DecidableEq, Repr

/-- Per-slice estimate computed by `transcribe.rs::start_current_slice`:
`max(1, (duration / 600.0 * 35.0).ceil() as u32)` with a known duration,
else the same rate applied to `file_size / 1_048_576.0` megabyte-minutes,
also with `.ceil()` (unlike the migration-time fallback, which rounds). -/
def startSliceEstimate (fileSize : Int) (audioDuration : Option ℚ) : Int :=
  match audioDuration with
  | some duration => max 1 (u32sat ⌈duration / 600 * 35⌉)
  | none =>
      let audio_minutes : ℚ := (fileSize : ℚ) / 1048576
      max 1 (u32sat ⌈audio_minutes / 10 * 35⌉)

/-- Embedding of `transcribe.rs::start_current_slice`: record the slice
being worked on and its per-slice estimate in the shared cell. -/
def start_current_slice (p : Option TranscriptionProgress) (sliceId : Int)
    (sliceName : String) (fileSize : Int) (audioDuration : Option ℚ) :
    Option TranscriptionProgress :=
  p.map (fun q =>
    { q with
      current_slice_id := some sliceId
      current_slice_name := some sliceName
      current_slice_file_size := fileSize
      current_slice_estimated_seconds := startSliceEstimate fileSize audioDuration
      current_slice_elapsed_seconds := 0
      current_step := "Transcribing audio..." })

/-- Embedding of `transcribe.rs::update_transcription_progress` (the
elapsed-seconds refresh from the wall clock is elided). -/
def update_transcription_progress (p : Option TranscriptionProgress)
    (sliceId : Option Int) (sliceName : Option String) (step : String) :
    Option TranscriptionProgress :=
  p.map (fun q =>
    { q with
      current_slice_id := sliceId
      current_slice_name := sliceName
      current_step := step })

/-- Embedding of `transcribe.rs::mark_slice_completed`. -/
def mark_slice_completed (p : Option TranscriptionProgress) : Option TranscriptionProgress :=
  p.map (fun q => { q with completed_slices := q.completed_slices + 1 })

/-- Embedding of `transcribe.rs::mark_slice_failed`. -/
def mark_slice_failed (p : Option TranscriptionProgress) : Option TranscriptionProgress :=
  p.map (fun q => { q with failed_slices := q.failed_slices + 1 })

/-- Failures of the per-slice transcription step, classified by the
message each `bail`/`context` in `transcribe_slice_sync` builds. -/
inductive TransError where
  | sliceNotFound
  | fileMissing (path : String)
  | engineFailed (msg : String)
deriving DecidableEq, Repr

/-- External conditions of a transcription run: the managed audio
directory, the configured model, which files exist on disk under that
directory, what the conversion-plus-speech-engine pipeline returns for a
path, and the wall-clock seconds the engine call takes. -/
structure TransEnv where
  audioDir : String
  modelName : String
  fsFiles : List String
  engine : String → Except String String
  elapsedSeconds : Int

/-- Word count used by `transcribe_slice_sync`:
`text.split_whitespace().count()`. -/
def countWords (text : String) : Int :=
  (((text.split (fun c => c.isWhitespace)).filter (fun w => !(w == "")))).length

/-- Embedding of `transcribe.rs::transcribe_slice_sync`: resolve the slice
by id, fail if its audio file is absent from managed storage, otherwise
record the slice in the progress cell, run conversion plus the speech
engine, and persist the transcription fields in one update.  Every error
return happens before the catalog write, so the store comes back
unchanged alongside it. -/
def transcribe_slice_sync (env : TransEnv) (db : DB)
    (prog : Option TranscriptionProgress) (sliceId : Int) :
    Except TransError Unit × DB × Option TranscriptionProgress :=
  match db.slices.find? (fun s => s.id == some sliceId) with
  | none => (.error .sliceNotFound, db, prog)
  | some slice =>
      let audioPath := env.audioDir ++ "/" ++ slice.original_audio_file_name
      if !(env.fsFiles.contains slice.original_audio_file_name) then
        (.error (.fileMissing audioPath), db, prog)
      else
        let prog := start_current_slice prog sliceId slice.original_audio_file_name
          slice.audio_file_size slice.audio_time_length_seconds
        match env.engine audioPath with
        | .error msg => (.error (.engineFailed msg), db, prog)
        | .ok text =>
            let timeTaken := env.elapsedSeconds
            let wordCount := countWords text
            let prog := update_transcription_progress prog (some sliceId)
              (some slice.original_audio_file_name) ("Saving transcription...")
            (.ok (), db.update_slice_transcription sliceId text timeTaken wordCount
              env.modelName, prog)

/-- Embedding of the sequential batch loop spawned by
`lib.rs::transcribe_slices`: each slice is transcribed with the sync
entry point; a failure is logged, bumps the failed counter and does not
stop the loop, a success bumps the completed counter. -/
def transcribe_batch (env : TransEnv) :
    List Int → DB × Option TranscriptionProgress → DB × Option TranscriptionProgress
  | [], st => st
  | sliceId :: rest, st =>
      match transcribe_slice_sync env st.1 st.2 sliceId with
      | (.error _, db', prog') => transcribe_batch env rest (db', mark_slice_failed prog')
      | (.ok _, db', prog') => transcribe_batch env rest (db', mark_slice_completed prog')

/-! ## Concrete fixtures used by witnesses and counterexamples -/

/-- Fresh untranscribed slice record with the given id and filename, as
migration would have produced it for a 1024-byte file. -/
def plainSlice (sid : Int) (name : String) : Slice :=
  { id := some sid
    original_audio_file_name := name
    title := none
    transcribed := false
    audio_file_size := 1024
    audio_file_type := "m4a"
    estimated_time_to_transcribe := 30
    audio_time_length_seconds := none
    transcription := none
    transcription_time_taken := none
    transcription_word_count := none
    transcription_model := none
    recording_date := none }

def sliceA : Slice := plainSlice 1 ("a.m4a")

def sliceB : Slice := plainSlice 2 ("b.m4a")

/-- Two-slice catalog holding `sliceA` and `sliceB`. -/
def dbAB : DB := ⟨[sliceA, sliceB], 3, 2⟩

/-- Slice with an implausible stored duration (over 24 hours). -/
def sliceCorrupt : Slice :=
  { plainSlice 1 ("c.m4a") with audio_time_length_seconds := some 100000 }

/-- Slice with a plausible stored duration. -/
def sliceFine : Slice :=
  { plainSlice 2 ("f.m4a") with audio_time_length_seconds := some 120 }

/-- Catalog mixing corrupt, plausible and absent durations. -/
def dbDur : DB := ⟨[sliceCorrupt, sliceFine, plainSlice 3 ("n.m4a")], 4, 3⟩

/-- One 100-byte candidate file whose copy succeeds. -/
def fileA : SourceFile := ⟨("a.m4a"), 100, none, none, false⟩

def dbEmpty : DB := ⟨[], 1, 0⟩

/-- Migration environment where every fallible setup step succeeds. -/
def envAllOk : MigEnv := ⟨true, true, true, true, true, true, true, [fileA]⟩

/-- Migration environment whose `ZCLOUDRECORDING` copy step fails. -/
def envBadZcloud : MigEnv := { envAllOk with copyZcloudOk := false }

/-- Cataloged slice whose audio file will be missing from disk. -/
def sliceGone : Slice := plainSlice 1 ("gone.m4a")

def dbGone : DB := ⟨[sliceGone], 2, 1⟩

/-- In-flight transcription progress snapshot. -/
def progT : TranscriptionProgress :=
  { total_slices := 2
    completed_slices := 0
    failed_slices := 0
    current_slice_id := none
    current_slice_name := none
    current_step := "Initializing..."
    estimated_total_seconds := 30
    elapsed_seconds := 0
    is_active := true
    current_slice_elapsed_seconds := 0
    current_slice_estimated_seconds := 0
    current_slice_file_size := 0
    bytes_per_second_rate := 34000 }

/-- Transcription environment with an empty managed audio directory. -/
def envTrans : TransEnv :=
  { audioDir := "/audio"
    modelName := "base.en"
    fsFiles := []
    engine := fun _ => .error ("engine unavailable")
    elapsedSeconds := 1 }

/-! ## Estimate lemmas (claims C3 and C9) -/

theorem i32sat_mono {a b : Int} (h : a ≤ b) : i32sat a ≤ i32sat b :=
  max_le_max le_rfl (min_le_min le_rfl h)

theorem u32sat_mono {a b : Int} (h : a ≤ b) : u32sat a ≤ u32sat b :=
  max_le_max le_rfl (min_le_min le_rfl h)

theorem round_le_ceil (x : ℚ) : ⌊x + 1/2⌋ ≤ ⌈x⌉ := by
  have hx := Int.le_ceil x
  have h : x + 1/2 < ((⌈x⌉ + 1 : ℤ) : ℚ) := by push_cast; linarith
  have := Int.floor_lt.mpr h
  omega

/-- C3 counterexample: for a 600000-byte file of unknown duration the code
computes `round(600000 / 1048576 / 10 * 35) = round(2.0027…) = 2`, while
the spec's rounded-up rule yields `3`, so the claimed formula does not
hold at this input. -/
theorem estimate_rounds_fallback_counterexample :
    estimate_transcription_time 600000 none = 2 ∧
    estimateSpecCeil 600000 none = 3 ∧
    estimate_transcription_time 600000 none ≠ estimateSpecCeil 600000 none := by
  refine ⟨?_, ?_, ?_⟩
  · with_unfolding_all rfl
  · with_unfolding_all rfl
  · with_unfolding_all decide

/-- C3 as amended: `estimate_transcription_time` follows the 35-seconds-
per-600-seconds rule on the actual duration (rounded up) when the duration
is known, and on the size-derived effective duration rounded to the
nearest integer (not up) when it is unknown, clamped to the `i32` range
and to a minimum of 1; in particular the estimate is always at least 1. -/
theorem estimate_matches_amended_rule (s : ℕ) (d : Option ℚ) :
    estimate_transcription_time s d = estimateSpecAmended s d ∧
    1 ≤ estimate_transcription_time s d := by
  constructor
  · cases d with
    | none =>
        show max 1 (i32sat ⌊(s : ℚ) / 1048576 / 10 * 35 + 1/2⌋) =
          max 1 (i32sat ⌊effectiveDurationSeconds s * 35 / 600 + 1/2⌋)
        have harg : (s : ℚ) / 1048576 / 10 * 35 = effectiveDurationSeconds s * 35 / 600 := by
          unfold effectiveDurationSeconds; ring
        rw [harg]
    | some dur =>
        show max 1 (i32sat ⌈dur / 600 * 35⌉) = max 1 (i32sat ⌈dur * 35 / 600⌉)
        have harg : dur / 600 * 35 = dur * 35 / 600 := by ring
        rw [harg]
  · cases d <;> exact le_max_left _ _

/-- C9: the transcription-time estimate is monotone in the duration for a
fixed size, monotone in the size on the unknown-duration fallback path,
and the fallback never exceeds the duration-based estimate taken at the
size's effective duration (the fallback rounds to nearest where the
duration path rounds up). -/
theorem estimate_monotone :
    (∀ (s : ℕ) (d1 d2 : ℚ), d1 ≤ d2 →
        estimate_transcription_time s (some d1) ≤ estimate_transcription_time s (some d2)) ∧
    (∀ s1 s2 : ℕ, s1 ≤ s2 →
        estimate_transcription_time s1 none ≤ estimate_transcription_time s2 none) ∧
    (∀ s : ℕ, estimate_transcription_time s none ≤
        estimate_transcription_time s (some (effectiveDurationSeconds s))) := by
  refine ⟨?_, ?_, ?_⟩
  · intro s d1 d2 h
    refine max_le_max le_rfl (i32sat_mono (Int.ceil_le_ceil ?_))
    have h35 : d1 * 35 ≤ d2 * 35 := by nlinarith
    calc d1 / 600 * 35 = d1 * 35 / 600 := by ring
      _ ≤ d2 * 35 / 600 := by
          exact (div_le_div_iff_of_pos_right (by norm_num)).mpr h35
      _ = d2 / 600 * 35 := by ring
  · intro s1 s2 h
    refine max_le_max le_rfl (i32sat_mono (Int.floor_le_floor ?_))
    have hc : (s1 : ℚ) ≤ (s2 : ℚ) := by exact_mod_cast h
    have : (s1 : ℚ) / 1048576 / 10 * 35 ≤ (s2 : ℚ) / 1048576 / 10 * 35 := by nlinarith
    linarith
  · intro s
    refine max_le_max le_rfl (i32sat_mono ?_)
    have harg : effectiveDurationSeconds s / 600 * 35 = (s : ℚ) / 1048576 / 10 * 35 := by
      unfold effectiveDurationSeconds; ring
    rw [harg]
    exact round_le_ceil _

/-- Witness for C9 at concrete inputs. -/
theorem estimate_monotone_witness :
    estimate_transcription_time 10000 (some 60) ≤
      estimate_transcription_time 10000 (some 600) ∧
    estimate_transcription_time 10000 none ≤ estimate_transcription_time 1048576 none ∧
    estimate_transcription_time 1048576 none ≤
      estimate_transcription_time 1048576 (some (effectiveDurationSeconds 1048576)) :=
  ⟨estimate_monotone.1 10000 60 600 (by norm_num),
   estimate_monotone.2.1 10000 1048576 (by norm_num),
   estimate_monotone.2.2 1048576⟩

/-! ## Source-scan selection (claim C4) -/

/-- C4 counterexample: a regular file named with an uppercase extension
equal to the audio extension ignoring case is *not* selected by the scan,
because `scan_m4a_files` compares the extension for exact equality. -/
theorem scan_case_counterexample :
    rustExtension ("Recording.M4A") = some ("M4A") ∧
    String.toLower ("M4A") = "m4a" ∧
    scan_m4a_files [Except.ok (FsEntry.mk ("Recording.M4A") true)] = [] := by
  refine ⟨?_, ?_, ?_⟩
  · with_unfolding_all rfl
  · with_unfolding_all rfl
  · with_unfolding_all rfl

/-- C4 as amended: the scan selects a filesystem object exactly when it
was yielded without an access error, is a regular file, and its extension
equals the audio extension exactly (a case-sensitive comparison, so
uppercase variants are excluded). -/
theorem scan_selects_exact_extension
    (entries : List (Except String FsEntry)) (ent : FsEntry) :
    ent ∈ scan_m4a_files entries ↔
      (Except.ok ent) ∈ entries ∧ ent.isFile = true ∧
        rustExtension ent.fileName = some ("m4a") := by
  unfold scan_m4a_files
  rw [List.mem_filterMap]
  constructor
  · rintro ⟨e, he, hfe⟩
    cases e with
    | error msg => simp at hfe
    | ok ent' =>
        dsimp only at hfe
        split at hfe
        · next hcond =>
            obtain rfl : ent' = ent := by injection hfe
            rw [Bool.and_eq_true, beq_iff_eq] at hcond
            exact ⟨he, hcond.1, hcond.2⟩
        · exact absurd hfe (by simp)
  · rintro ⟨he, hfile, hext⟩
    exact ⟨Except.ok ent, he, by simp [hfile, hext]⟩

/-! ## Duplicate insert (claim C10) -/

/-- C10: inserting a slice whose filename already has a record is a
silent no-op, not an error: the call returns the connection's unchanged
`last_insert_rowid()` and the catalog is unchanged. -/
theorem insert_duplicate_is_noop (db : DB) (s : Slice)
    (h : db.slice_exists s.original_audio_file_name = true) :
    db.insert_slice s = (db.lastInsertRowid, db) := by
  unfold DB.slice_exists at h
  unfold DB.insert_slice
  rw [if_pos h]

/-- Witness for C10: re-inserting a record named like `sliceA` leaves the
two-slice catalog unchanged and reports the stale rowid. -/
theorem insert_duplicate_is_noop_witness :
    dbAB.insert_slice (plainSlice 9 ("a.m4a")) = (dbAB.lastInsertRowid, dbAB) :=
  insert_duplicate_is_noop dbAB (plainSlice 9 ("a.m4a")) (by decide)

/-! ## Historical throughput (claim C7) -/

theorem speedRow_time_pos {s : Slice} (h : speedRow s = true) :
    0 < (s.transcription_time_taken).getD 0 := by
  unfold speedRow at h
  cases hts : s.transcription_time_taken with
  | none => rw [hts] at h; simp at h
  | some t =>
      rw [hts] at h
      simp only [Bool.and_eq_true, decide_eq_true_eq] at h
      simpa [hts] using h.1.2

/-- C7: the historical throughput equals the summed audio bytes divided
by the summed recorded seconds, taken over exactly the transcribed slices
with positive recorded time and positive size; with no such slice the
fixed default of 34000 bytes per second is returned. -/
theorem transcription_speed_formula (db : DB) :
    db.get_transcription_speed =
      if db.slices.filter speedRow = [] then (34000 : ℚ)
      else
        ((((db.slices.filter speedRow).map (fun s => s.audio_file_size)).sum : Int) : ℚ) /
          ((((db.slices.filter speedRow).map
              (fun s => (s.transcription_time_taken).getD 0)).sum : Int) : ℚ) := by
  unfold DB.get_transcription_speed
  by_cases hempty : db.slices.filter speedRow = []
  · simp [hempty]
  · rw [if_neg hempty]
    obtain ⟨r, hr⟩ := List.exists_mem_of_ne_nil _ hempty
    have hrpos : 0 < (r.transcription_time_taken).getD 0 :=
      speedRow_time_pos (List.mem_filter.mp hr).2
    have hnonneg : ∀ x ∈ (db.slices.filter speedRow).map
        (fun s => (s.transcription_time_taken).getD 0), 0 ≤ x := by
      intro x hx
      obtain ⟨s, hs, rfl⟩ := List.mem_map.mp hx
      exact le_of_lt (speedRow_time_pos (List.mem_filter.mp hs).2)
    have hsum : 0 < ((db.slices.filter speedRow).map
        (fun s => (s.transcription_time_taken).getD 0)).sum := by
      have hmem : (r.transcription_time_taken).getD 0 ∈
          (db.slices.filter speedRow).map (fun s => (s.transcription_time_taken).getD 0) :=
        List.mem_map.mpr ⟨r, hr, rfl⟩
      exact lt_of_lt_of_le hrpos (List.single_le_sum hnonneg _ hmem)
    rw [if_pos hsum]

/-! ## Corruption repair (claim C8) -/

/-- C8: the repair pass keeps the table length, reports exactly the
number of rows whose stored duration exceeded 86400 seconds, nulls the
duration of each such row while leaving its other fields alone, and
leaves every row with a smaller or absent duration entirely unchanged. -/
theorem clear_corrupt_durations_spec (db : DB) (k : ℕ) (s : Slice)
    (hk : db.slices[k]? = some s) :
    db.clear_corrupt_audio_durations.1.slices.length = db.slices.length ∧
    db.clear_corrupt_audio_durations.2 = (db.slices.filter corruptRow).length ∧
    (∀ d : ℚ, s.audio_time_length_seconds = some d → 86400 < d →
        db.clear_corrupt_audio_durations.1.slices[k]? =
          some { s with audio_time_length_seconds := none }) ∧
    (∀ d : ℚ, s.audio_time_length_seconds = some d → d ≤ 86400 →
        db.clear_corrupt_audio_durations.1.slices[k]? = some s) ∧
    (s.audio_time_length_seconds = none →
        db.clear_corrupt_audio_durations.1.slices[k]? = some s) := by
  unfold DB.clear_corrupt_audio_durations
  refine ⟨by simp, rfl, ?_, ?_, ?_⟩
  · intro d hd hcorr
    have hc : corruptRow s = true := by unfold corruptRow; rw [hd]; simpa using hcorr
    simp [List.getElem?_map, hk, hc]
  · intro d hd hok
    have hc : corruptRow s = false := by
      unfold corruptRow; rw [hd]; simpa using not_lt.mpr hok
    simp [List.getElem?_map, hk, hc]
  · intro hnone
    have hc : corruptRow s = false := by unfold corruptRow; rw [hnone]
    simp [List.getElem?_map, hk, hc]

/-- Witness for C8 on a three-slice catalog: the over-24h duration is
nulled, the plausible one is untouched, and the count is 1. -/
theorem clear_corrupt_durations_witness :
    dbDur.clear_corrupt_audio_durations.2 = (dbDur.slices.filter corruptRow).length ∧
    dbDur.clear_corrupt_audio_durations.1.slices[0]? =
      some { sliceCorrupt with audio_time_length_seconds := none } :=
  ⟨(clear_corrupt_durations_spec dbDur 0 sliceCorrupt (by with_unfolding_all rfl)).2.1,
   (clear_corrupt_durations_spec dbDur 0 sliceCorrupt
      (by with_unfolding_all rfl)).2.2.1 100000 (by with_unfolding_all rfl) (by norm_num)⟩

/-! ## Rename and update uniqueness (claim C2) -/

theorem slice_name_ne_symm :
    Symmetric (fun s t : Slice =>
      s.original_audio_file_name ≠ t.original_audio_file_name) :=
  fun _ _ h => Ne.symm h

theorem slice_id_ne_symm : Symmetric (fun s t : Slice => s.id ≠ t.id) :=
  fun _ _ h => Ne.symm h

/-- C2: in a well-formed catalog (distinct filenames and distinct ids),
renaming or updating a slice to the filename of a *different* slice fails
with a conflict error and returns the store unchanged, while renaming a
slice to its own current filename succeeds and also leaves the store
as it was. -/
theorem rename_to_taken_name_conflicts (db : DB) (a b : Slice) (i j : Int)
    (ha : a ∈ db.slices) (hb : b ∈ db.slices)
    (hai : a.id = some i) (hbj : b.id = some j) (hij : i ≠ j)
    (hnames : db.slices.Pairwise
      (fun s t => s.original_audio_file_name ≠ t.original_audio_file_name))
    (hids : db.slices.Pairwise (fun s t => s.id ≠ t.id)) :
    db.update_slice_name i b.original_audio_file_name =
      (.error (.conflict b.original_audio_file_name), db) ∧
    (∀ payload : Slice,
      payload.original_audio_file_name = b.original_audio_file_name →
        db.update_slice i payload =
          (.error (.conflict b.original_audio_file_name), db)) ∧
    db.update_slice_name i a.original_audio_file_name = (.ok (), db) := by
  have hbcond : (b.original_audio_file_name == b.original_audio_file_name &&
      !(b.id == some i)) = true := by
    simp only [hbj, beq_self_eq_true, Bool.true_and, Bool.not_eq_true',
      beq_eq_false_iff_ne, ne_eq, Option.some.injEq]
    exact fun h => hij h.symm
  have hconf : 0 < (db.slices.filter (fun s =>
      s.original_audio_file_name == b.original_audio_file_name &&
        !(s.id == some i))).length :=
    List.length_pos_of_mem (List.mem_filter.mpr ⟨hb, hbcond⟩)
  refine ⟨?_, ?_, ?_⟩
  · unfold DB.update_slice_name
    rw [if_pos hconf]
  · intro payload hpn
    unfold DB.update_slice
    rw [hpn, if_pos hconf]
  · have hzero : (db.slices.filter (fun s =>
        s.original_audio_file_name == a.original_audio_file_name &&
          !(s.id == some i))).length = 0 := by
      rw [List.length_eq_zero, List.filter_eq_nil_iff]
      intro s hs
      by_cases hsa : s = a
      · subst hsa; simp [hai]
      · have hne := hnames.forall slice_name_ne_symm hs ha hsa
        simp [hne]
    have hexist : 0 < (db.slices.filter (fun s => s.id == some i)).length :=
      List.length_pos_of_mem (List.mem_filter.mpr ⟨ha, by simp [hai]⟩)
    have hmap : db.slices.map (fun s =>
        if s.id == some i then
          { s with original_audio_file_name := a.original_audio_file_name }
        else s) = db.slices := by
      have hpt : ∀ s ∈ db.slices,
          (if s.id == some i then
            { s with original_audio_file_name := a.original_audio_file_name }
          else s) = s := by
        intro s hs
        by_cases hsi : s.id = some i
        · have hsa : s = a := by
            by_contra hne
            exact (hids.forall slice_id_ne_symm hs ha hne) (by rw [hsi, hai])
          subst hsa
          rw [if_pos (by simp [hsi])]
        · simp [hsi]
      rw [List.map_congr_left hpt, List.map_id']
    unfold DB.update_slice_name
    rw [hzero, if_neg (by omega), if_neg (by omega), hmap]

/-- Witness for C2 on the two-slice catalog: renaming slice 1 to slice
2's filename conflicts and changes nothing, renaming it to its own
filename succeeds and changes nothing. -/
theorem rename_to_taken_name_witness :
    dbAB.update_slice_name 1 sliceB.original_audio_file_name =
      (.error (.conflict sliceB.original_audio_file_name), dbAB) ∧
    dbAB.update_slice_name 1 sliceA.original_audio_file_name = (.ok (), dbAB) :=
  ⟨(rename_to_taken_name_conflicts dbAB sliceA sliceB 1 2 (by decide) (by decide)
      (by decide) (by decide) (by decide) (by decide) (by decide)).1,
   (rename_to_taken_name_conflicts dbAB sliceA sliceB 1 2 (by decide) (by decide)
      (by decide) (by decide) (by decide) (by decide) (by decide)).2.2⟩

/-! ## Migration idempotence (claim C1) -/

theorem insert_slice_exists (db : DB) (s : Slice) (n : String) :
    (db.insert_slice s).2.slice_exists n =
      (db.slice_exists n || (s.original_audio_file_name == n)) := by
  unfold DB.insert_slice DB.slice_exists
  split
  · next hdup =>
      by_cases hn : s.original_audio_file_name = n
      · subst hn; simp [hdup]
      · have hf : (s.original_audio_file_name == n) = false := beq_eq_false_iff_ne.mpr hn
        simp [hf]
  · simp [List.any_append]

theorem process_cases (f : SourceFile) (db : DB) :
    (db.slice_exists f.filename = true ∧ process_m4a_file f db = .ok (.Skipped, db)) ∨
    (db.slice_exists f.filename = false ∧ f.copyFails = true ∧
      process_m4a_file f db = .error .copyFailed) ∨
    (db.slice_exists f.filename = false ∧ f.copyFails = false ∧
      process_m4a_file f db = .ok (.Copied f.size, (db.insert_slice (mkSlice f)).2)) := by
  cases hex : db.slice_exists f.filename with
  | true =>
      left
      exact ⟨rfl, by unfold process_m4a_file; rw [hex]; simp⟩
  | false =>
      right
      cases hc : f.copyFails with
      | true =>
          left
          exact ⟨rfl, rfl, by unfold process_m4a_file; rw [hex, hc]; simp⟩
      | false =>
          right
          exact ⟨rfl, rfl, by unfold process_m4a_file; rw [hex, hc]; simp⟩

theorem step_preserves (total idx : ℕ) (f : SourceFile) (st : LoopState) (n : String)
    (h : st.db.slice_exists n = true) :
    (processLoopStep total st idx f).db.slice_exists n = true := by
  unfold processLoopStep
  rcases process_cases f st.db with ⟨_, hp⟩ | ⟨_, _, hp⟩ | ⟨_, _, hp⟩ <;> rw [hp]
  · exact h
  · exact h
  · dsimp only
    rw [insert_slice_exists, h]
    rfl

theorem step_errors_ge (total idx : ℕ) (f : SourceFile) (st : LoopState) :
    st.summary.errors ≤ (processLoopStep total st idx f).summary.errors := by
  unfold processLoopStep
  rcases process_cases f st.db with ⟨_, hp⟩ | ⟨_, _, hp⟩ | ⟨_, _, hp⟩ <;> rw [hp] <;> simp

theorem step_no_error_adds (total idx : ℕ) (f : SourceFile) (st : LoopState)
    (h : (processLoopStep total st idx f).summary.errors = st.summary.errors) :
    (processLoopStep total st idx f).db.slice_exists f.filename = true := by
  unfold processLoopStep
  rcases process_cases f st.db with ⟨hex, hp⟩ | ⟨_, _, hp⟩ | ⟨_, _, hp⟩ <;> rw [hp]
  · exact hex
  · exfalso
    unfold processLoopStep at h
    rw [hp] at h
    simp at h
  · dsimp only
    rw [insert_slice_exists]
    simp [mkSlice]

theorem loop_errors_ge (total : ℕ) (files : List SourceFile) :
    ∀ (idx : ℕ) (st : LoopState),
      st.summary.errors ≤ (processLoop total idx files st).summary.errors := by
  induction files with
  | nil => intro idx st; exact le_rfl
  | cons f fs ih =>
      intro idx st
      exact le_trans (step_errors_ge total idx f st) (ih (idx + 1) _)

theorem loop_preserves (total : ℕ) (files : List SourceFile) :
    ∀ (idx : ℕ) (st : LoopState) (n : String), st.db.slice_exists n = true →
      (processLoop total idx files st).db.slice_exists n = true := by
  induction files with
  | nil => intro idx st n h; exact h
  | cons f fs ih =>
      intro idx st n h
      exact ih (idx + 1) _ n (step_preserves total idx f st n h)

theorem loop_no_error_all_exist (total : ℕ) (files : List SourceFile) :
    ∀ (idx : ℕ) (st : LoopState),
      (processLoop total idx files st).summary.errors = st.summary.errors →
      ∀ f ∈ files, (processLoop total idx files st).db.slice_exists f.filename = true := by
  induction files with
  | nil => intro idx st _ f hf; exact absurd hf (List.not_mem_nil f)
  | cons g gs ih =>
      intro idx st h f hf
      have hstep_le := step_errors_ge total idx g st
      have hloop_ge := loop_errors_ge total gs (idx + 1) (processLoopStep total st idx g)
      have hstep_eq : (processLoopStep total st idx g).summary.errors = st.summary.errors := by
        have hrw : processLoop total idx (g :: gs) st =
            processLoop total (idx + 1) gs (processLoopStep total st idx g) := rfl
        rw [hrw] at h
        omega
      rcases List.mem_cons.mp hf with rfl | hf'
      · exact loop_preserves total gs (idx + 1) _ f.filename
          (step_no_error_adds total idx f st hstep_eq)
      · exact ih (idx + 1) (processLoopStep total st idx g) (by rw [← hstep_eq] at h; exact h)
          f hf'

theorem step_skip (total idx : ℕ) (g : SourceFile) (st : LoopState)
    (hg : st.db.slice_exists g.filename = true) :
    processLoopStep total st idx g =
      { summary := { st.summary with skipped := st.summary.skipped + 1 }
        progress := (update_progress st.progress
            ("Processing (" ++ toString (idx + 1) ++ "/" ++ toString total ++ "): " ++
              g.filename) none none).map
          (fun q => { q with processed_recordings := idx + 1 })
        db := st.db } := by
  unfold processLoopStep process_m4a_file
  rw [hg]
  simp

theorem loop_all_skip (total : ℕ) (files : List SourceFile) :
    ∀ (idx : ℕ) (st : LoopState),
      (∀ f ∈ files, st.db.slice_exists f.filename = true) →
      (processLoop total idx files st).db = st.db ∧
      (processLoop total idx files st).summary =
        { st.summary with skipped := st.summary.skipped + files.length } ∧
      (processLoop total idx files st).progress.map
          (fun q => (q.failed_recordings, q.processed_size_bytes)) =
        st.progress.map (fun q => (q.failed_recordings, q.processed_size_bytes)) := by
  induction files with
  | nil =>
      intro idx st _
      refine ⟨rfl, ?_, rfl⟩
      show st.summary = _
      cases st.summary
      simp
  | cons g gs ih =>
      intro idx st h
      have hg : st.db.slice_exists g.filename = true := h g (List.mem_cons_self g gs)
      have hstep := step_skip total idx g st hg
      have hrest : ∀ f ∈ gs, (processLoopStep total st idx g).db.slice_exists f.filename = true := by
        intro f hf
        rw [hstep]
        exact h f (List.mem_cons_of_mem g hf)
      obtain ⟨h1, h2, h3⟩ := ih (idx + 1) (processLoopStep total st idx g) hrest
      have hrw : processLoop total idx (g :: gs) st =
          processLoop total (idx + 1) gs (processLoopStep total st idx g) := rfl
      refine ⟨?_, ?_, ?_⟩
      · rw [hrw, h1, hstep]
      · rw [hrw, h2, hstep]
        have harith : st.summary.skipped + 1 + gs.length =
            st.summary.skipped + (gs.length + 1) := by omega
        simp [harith]
      · rw [hrw, h3, hstep]
        cases st.progress <;> rfl

/-- C1: a candidate file whose filename already has a slice record is
skipped with the catalog untouched; consequently, after an error-free
migration pass, a second pass over the same files changes no catalog
record, copies zero files and zero bytes, and reports every file as
skipped. -/
theorem migration_idempotent (files : List SourceFile)
    (p1 p2 : Option MigrationProgress) (db : DB)
    (herr : (runMigrationFiles files p1 db).summary.errors = 0) :
    (∀ (f : SourceFile) (d : DB), d.slice_exists f.filename = true →
        process_m4a_file f d = .ok (.Skipped, d)) ∧
    (runMigrationFiles files p2 (runMigrationFiles files p1 db).db).db =
        (runMigrationFiles files p1 db).db ∧
    (runMigrationFiles files p2 (runMigrationFiles files p1 db).db).summary =
        ⟨0, files.length, 0, (files.map (fun f => f.size)).sum⟩ ∧
    (runMigrationFiles files p2 (runMigrationFiles files p1 db).db).progress.map
        (fun q => (q.failed_recordings, q.processed_size_bytes)) =
      p2.map (fun q => (q.failed_recordings, q.processed_size_bytes)) := by
  have hskip : ∀ (f : SourceFile) (d : DB), d.slice_exists f.filename = true →
      process_m4a_file f d = .ok (.Skipped, d) := by
    intro f d h
    unfold process_m4a_file
    rw [h]
    simp
  have hall : ∀ f ∈ files,
      (runMigrationFiles files p1 db).db.slice_exists f.filename = true := by
    intro f hf
    exact loop_no_error_all_exist files.length files 0 _ (by exact herr) f hf
  obtain ⟨h1, h2, h3⟩ := loop_all_skip files.length files 0
    ⟨⟨0, 0, 0, (files.map (fun f => f.size)).sum⟩, p2, (runMigrationFiles files p1 db).db⟩
    hall
  refine ⟨hskip, h1, ?_, h3⟩
  show (processLoop files.length 0 files
      ⟨⟨0, 0, 0, (files.map (fun f => f.size)).sum⟩, p2,
        (runMigrationFiles files p1 db).db⟩).summary = _
  rw [h2]
  simp

/-- Witness for C1: migrating the one-file source twice from an empty
catalog reports the file as skipped on the second pass, with the catalog
and the copied-bytes accounting unchanged. -/
theorem migration_idempotent_witness :
    (runMigrationFiles [fileA] none (runMigrationFiles [fileA] none dbEmpty).db).db =
        (runMigrationFiles [fileA] none dbEmpty).db ∧
    (runMigrationFiles [fileA] none (runMigrationFiles [fileA] none dbEmpty).db).summary =
        ⟨0, [fileA].length, 0, ([fileA].map (fun f => f.size)).sum⟩ :=
  ⟨(migration_idempotent [fileA] none none dbEmpty (by with_unfolding_all rfl)).2.1,
   (migration_idempotent [fileA] none none dbEmpty (by with_unfolding_all rfl)).2.2.1⟩

/-! ## Migration progress lifecycle (claim C5) -/

/-- C5 counterexample: when the `ZCLOUDRECORDING` copy step fails,
`start_migration` returns an error with the shared progress cell still
occupied, so a stale in-progress snapshot stays visible to a poller. -/
theorem migration_stale_progress_counterexample :
    (start_migration envBadZcloud dbEmpty).1 = .error .zcloudCopyFailed ∧
    (start_migration envBadZcloud dbEmpty).2.1 ≠ none := by
  constructor
  · with_unfolding_all rfl
  · with_unfolding_all decide

/-- C5 as amended: `start_migration` leaves the progress cell cleared on
every exit path *except* the four `?`-style early returns (ciderpress
home-directory creation, database open, `ZCLOUDRECORDING` copy and
destination-directory creation failures); when those steps succeed, every
exit — error or success — ends with the cell reset to `none`. -/
theorem migration_progress_cleared (env : MigEnv) (db : DB)
    (h1 : env.createHomeDirOk = true) (h2 : env.dbOpenOk = true)
    (h3 : env.copyZcloudOk = true) (h4 : env.createDestDirOk = true) :
    (start_migration env db).2.1 = none := by
  unfold start_migration
  rw [h1, h2, h3, h4]
  cases hA : env.appleDbExists <;> cases hD : env.dirExists <;>
    cases hL : env.dirListable <;> cases hE : env.files.isEmpty <;> simp

/-- Witness for C5 (amended) on the all-successful environment. -/
theorem migration_progress_cleared_witness :
    (start_migration envAllOk dbEmpty).2.1 = none :=
  migration_progress_cleared envAllOk dbEmpty rfl rfl rfl rfl

/-! ## Missing audio file during transcription (claim C6) -/

/-- C6: transcribing a cataloged slice whose audio file is absent from
managed storage fails with a file-missing error before any engine work,
leaves the catalog (and hence the slice's `transcribed` flag) unchanged,
and in the batch loop bumps only the failed counter before the loop moves
on to the remaining slices. -/
theorem transcribe_missing_file (env : TransEnv) (db : DB)
    (prog : Option TranscriptionProgress) (sliceId : Int) (rest : List Int) (s : Slice)
    (hfind : db.slices.find? (fun t => t.id == some sliceId) = some s)
    (hmiss : env.fsFiles.contains s.original_audio_file_name = false) :
    transcribe_slice_sync env db prog sliceId =
      (.error (.fileMissing (env.audioDir ++ "/" ++ s.original_audio_file_name)),
        db, prog) ∧
    (s.transcribed = false →
      (((transcribe_slice_sync env db prog sliceId).2.1.slices.find?
          (fun t => t.id == some sliceId)).map (fun t => t.transcribed)) = some false) ∧
    transcribe_batch env (sliceId :: rest) (db, prog) =
      transcribe_batch env rest (db, mark_slice_failed prog) := by
  have hcall : transcribe_slice_sync env db prog sliceId =
      (.error (.fileMissing (env.audioDir ++ "/" ++ s.original_audio_file_name)),
        db, prog) := by
    unfold transcribe_slice_sync
    rw [hfind]
    dsimp only
    rw [hmiss]
    rfl
  refine ⟨hcall, ?_, ?_⟩
  · intro hfalse
    rw [hcall]
    simp [hfind, hfalse]
  · show (match transcribe_slice_sync env db prog sliceId with
      | (.error _, db', prog') => transcribe_batch env rest (db', mark_slice_failed prog')
      | (.ok _, db', prog') => transcribe_batch env rest (db', mark_slice_completed prog')) =
      transcribe_batch env rest (db, mark_slice_failed prog)
    rw [hcall]

/-- Witness for C6: a catalog with one slice whose file is gone from the
(empty) managed directory; the sync call fails with the file-missing
error, the flag stays false, and the batch continues with slice 2. -/
theorem transcribe_missing_file_witness :
    transcribe_slice_sync envTrans dbGone (some progT) 1 =
      (.error (.fileMissing (envTrans.audioDir ++ "/" ++
        sliceGone.original_audio_file_name)), dbGone, some progT) ∧
    (sliceGone.transcribed = false →
      (((transcribe_slice_sync envTrans dbGone (some progT) 1).2.1.slices.find?
          (fun t => t.id == some (1 : Int))).map (fun t => t.transcribed)) = some false) ∧
    transcribe_batch envTrans ([1, 2] : List Int) (dbGone, some progT) =
      transcribe_batch envTrans ([2] : List Int) (dbGone, mark_slice_failed (some progT)) :=
  transcribe_missing_file envTrans dbGone (some progT) 1 [2] sliceGone
    (by with_unfolding_all rfl) (by with_unfolding_all rfl)

end Ciderpress
